import Mathlib

/-!
Verification of the temporal-order-system orchestration core.

The Python source (src/business_functions.py, src/workflows.py) is embedded
shallowly: the store is an explicit `DB` value, each business function is a
pure function over it (the `flaky_call` prelude either fails before any store
work or the function runs to completion, so a successful invocation performs
its store effect exactly once and a failed one performs none), and the
workflow control flow is a deterministic interpreter over activity outcomes
and a schedule of signals processed at each await point.
-/

/-- One entry of the order's item list, as in the Python dict
`{"sku": ..., "qty": ...}`; `qty` is optional and read with
`i.get("qty", 1)`. -/
structure Item where
  sku : String
  qty : Option Nat
deriving DecidableEq, Repr

/-- Address payloads are open string/string mappings in the source. -/
abbrev Address := List (String × String)

/-- The order payload built by `order_received` and mutated only by the
`update_address` signal handler. -/
structure Order where
  order_id : String
  items : List Item
  address : Option Address
deriving DecidableEq, Repr

/-- A row of the `orders` table. -/
structure OrderRow where
  id : String
  state : String
  items_json : List Item
deriving DecidableEq, Repr

/-- A row of the `payments` table. -/
structure PaymentRow where
  payment_id : String
  order_id : String
  status : String
  amount : Nat
deriving DecidableEq, Repr

/-- A row of the `events` table. -/
structure EventRow where
  order_id : String
  type : String
deriving DecidableEq, Repr

/-- The relational store visible to the business functions. -/
structure DB where
  orders : List OrderRow
  payments : List PaymentRow
  events : List EventRow
deriving DecidableEq, Repr

def DB.empty : DB := ⟨[], [], []⟩

/-- `INSERT INTO orders ... ON CONFLICT (id) DO NOTHING`. -/
def insertOrderIfAbsent (db : DB) (row : OrderRow) : DB :=
  if db.orders.any (fun r => r.id == row.id) then db
  else { db with orders := db.orders ++ [row] }

/-- `UPDATE orders SET state = $1 ... WHERE id = $3`. -/
def updateOrderState (db : DB) (oid newState : String) : DB :=
  { db with
    orders := db.orders.map (fun r => if r.id == oid then { r with state := newState } else r) }

/-- `INSERT INTO events (order_id, type, ...)`. -/
def addEvent (db : DB) (oid ty : String) : DB :=
  { db with events := db.events ++ [⟨oid, ty⟩] }

/-- The result dict returned by `payment_charged`. -/
structure PaymentResult where
  status : String
  amount : Nat
  payment_id : String
deriving DecidableEq, Repr

/-- `order_received` success path: inserts the order row (insert-if-absent)
and returns the order payload with the fixed single item list. -/
def order_received (order_id : String) (db : DB) : Order × DB :=
  (⟨order_id, [⟨"ABC", some 1⟩], none⟩,
   insertOrderIfAbsent db ⟨order_id, "received", [⟨"ABC", some 1⟩]⟩)

/-- `order_validated` success path: raises if the order row is absent or the
item list is empty, otherwise marks the row validated and returns True. -/
def order_validated (order : Order) (db : DB) : Except String (Bool × DB) :=
  if ¬ db.orders.any (fun r => r.id == order.order_id) then
    .error ("Order " ++ order.order_id ++ " not found")
  else if order.items.isEmpty then
    .error "No items to validate"
  else
    .ok (true, updateOrderState db order.order_id "validated")

/-- `payment_charged` success path: computes the amount as
`sum(i.get("qty", 1) for i in order.get("items", []))`; if a payment row
keyed by `payment_id` already exists it returns that row's amount and leaves
the store untouched, otherwise it inserts the new payment row and marks the
order `payment_charged`. -/
def payment_charged (order : Order) (payment_id : String) (db : DB) :
    PaymentResult × DB :=
  let amount := (order.items.map (fun i => i.qty.getD 1)).sum
  match db.payments.find? (fun p => p.payment_id == payment_id) with
  | some existing => (⟨"charged", existing.amount, payment_id⟩, db)
  | none =>
      let db1 := { db with
        payments := db.payments ++ [⟨payment_id, order.order_id, "charged", amount⟩] }
      (⟨"charged", amount, payment_id⟩, updateOrderState db1 order.order_id "payment_charged")

/-- `package_prepared` success path: marks the order row and logs an event. -/
def package_prepared (order : Order) (db : DB) : String × DB :=
  ("Package ready",
   addEvent (updateOrderState db order.order_id "package_prepared") order.order_id
     "package_prepared")

/-- `carrier_dispatched` success path: marks the order row and logs an event. -/
def carrier_dispatched (order : Order) (db : DB) : String × DB :=
  ("Dispatched",
   addEvent (updateOrderState db order.order_id "dispatched") order.order_id
     "carrier_dispatched")

/-- The store state after invoking `payment_charged` `n` times in a row with
the same order and payment id, together with the list of returned results
(first invocation first). -/
def chargeRuns (order : Order) (payment_id : String) : Nat → DB → List PaymentResult × DB
  | 0, db => ([], db)
  | n + 1, db =>
      let r := payment_charged order payment_id db
      let rest := chargeRuns order payment_id n r.2
      (r.1 :: rest.1, rest.2)

/-- No payment row keyed `pid` is stored in `db`. -/
def noPaymentFor (db : DB) (pid : String) : Prop :=
  ∀ r ∈ db.payments, r.payment_id ≠ pid

instance (db : DB) (pid : String) : Decidable (noPaymentFor db pid) := by
  unfold noPaymentFor; infer_instance

-- Helper lemmas for the idempotency argument.

theorem find?_none_of_noPaymentFor {db : DB} {pid : String} (h : noPaymentFor db pid) :
    db.payments.find? (fun p => p.payment_id == pid) = none := by
  rw [List.find?_eq_none]
  intro r hr
  simpa using h r hr

theorem payment_charged_fresh {order : Order} {pid : String} {db : DB}
    (h : noPaymentFor db pid) :
    payment_charged order pid db =
      (⟨"charged", (order.items.map (fun i => i.qty.getD 1)).sum, pid⟩,
       updateOrderState
         { db with payments := db.payments ++
             [⟨pid, order.order_id, "charged", (order.items.map (fun i => i.qty.getD 1)).sum⟩] }
         order.order_id "payment_charged") := by
  unfold payment_charged
  rw [find?_none_of_noPaymentFor h]

theorem find?_append_right {l₁ l₂ : List PaymentRow} {p : PaymentRow → Bool}
    (h : l₁.find? p = none) : (l₁ ++ l₂).find? p = l₂.find? p := by
  induction l₁ with
  | nil => simp
  | cons a l ih =>
      rw [List.find?_eq_none] at h
      have ha : p a = false := by
        have := h a (by simp)
        simpa using this
      have hl : l.find? p = none := by
        rw [List.find?_eq_none]
        intro x hx
        exact h x (by simp [hx])
      simp [List.find?, ha, ih hl]

/-- After a fresh charge, looking up the payment id in the store finds
exactly the newly inserted row. -/
theorem payment_charged_second_finds {order : Order} {pid : String} {db : DB}
    (h : noPaymentFor db pid) :
    ((payment_charged order pid db).2).payments.find? (fun p => p.payment_id == pid) =
      some ⟨pid, order.order_id, "charged", (order.items.map (fun i => i.qty.getD 1)).sum⟩ := by
  rw [payment_charged_fresh h]
  show (db.payments ++ [_]).find? _ = _
  rw [find?_append_right (find?_none_of_noPaymentFor h)]
  simp [List.find?]

/-- When a payment row for the id is already stored, `payment_charged`
returns its amount and leaves the store untouched. -/
theorem payment_charged_hit {order : Order} {pid : String} {db : DB} {row : PaymentRow}
    (h : db.payments.find? (fun p => p.payment_id == pid) = some row) :
    payment_charged order pid db = (⟨"charged", row.amount, pid⟩, db) := by
  unfold payment_charged
  rw [h]

/-- A second charge with the same payment id observes the stored row and
changes nothing. -/
theorem payment_charged_idem {order : Order} {pid : String} {db : DB}
    (h : noPaymentFor db pid) :
    payment_charged order pid (payment_charged order pid db).2 =
      ((payment_charged order pid db).1, (payment_charged order pid db).2) := by
  rw [payment_charged_hit (@payment_charged_second_finds order _ _ h),
    payment_charged_fresh h]

/-- Once the lookup hits a stored row, every further charge returns that
row's amount and leaves the store fixed. -/
theorem chargeRuns_stable {order : Order} {pid : String} {db : DB} {row : PaymentRow}
    (h : db.payments.find? (fun p => p.payment_id == pid) = some row) :
    ∀ m, chargeRuns order pid m db =
      (List.replicate m ⟨"charged", row.amount, pid⟩, db) := by
  intro m
  induction m with
  | zero => simp [chargeRuns]
  | succ k ih =>
      unfold chargeRuns
      rw [payment_charged_hit h]
      simp [ih, List.replicate_succ]

/-- C1: invoking the charge step N > 1 times with the same payment id and the
same order yields on every invocation the same result (hence the same
recorded amount) as the first one, leaves the store exactly as it is after
the first invocation (no additional store effect), and the final store holds
exactly one payment row keyed by that id. -/
theorem claim_C1_charge_idempotent (order : Order) (pid : String) (db : DB) (n : Nat)
    (h : noPaymentFor db pid) (hn : 1 ≤ n) :
    (∀ r ∈ (chargeRuns order pid n db).1, r = (payment_charged order pid db).1) ∧
    (chargeRuns order pid n db).2 = (payment_charged order pid db).2 ∧
    ((chargeRuns order pid n db).2).payments.countP (fun p => p.payment_id == pid) = 1 := by
  obtain ⟨k, rfl⟩ : ∃ k, n = k + 1 := ⟨n - 1, by omega⟩
  have hfind := @payment_charged_second_finds order _ _ h
  have hrest := @chargeRuns_stable order _ _ _ hfind
  have hfst : (payment_charged order pid db).1 =
      ⟨"charged", (order.items.map (fun i => i.qty.getD 1)).sum, pid⟩ := by
    rw [payment_charged_fresh h]
  have hruns : chargeRuns order pid (k + 1) db =
      ((payment_charged order pid db).1 ::
        List.replicate k ⟨"charged", (order.items.map (fun i => i.qty.getD 1)).sum, pid⟩,
       (payment_charged order pid db).2) := by
    show ((payment_charged order pid db).1 ::
        (chargeRuns order pid k (payment_charged order pid db).2).1,
        (chargeRuns order pid k (payment_charged order pid db).2).2) = _
    rw [hrest k]
  refine ⟨?_, ?_, ?_⟩
  · intro r hr
    rw [hruns] at hr
    rcases List.mem_cons.mp hr with h1 | h1
    · exact h1
    · rw [hfst]
      exact List.eq_of_mem_replicate h1
  · rw [hruns]
  · rw [hruns]
    show ((payment_charged order pid db).2).payments.countP _ = 1
    rw [payment_charged_fresh h]
    show (db.payments ++ [_]).countP _ = 1
    have h0 : db.payments.countP (fun p => p.payment_id == pid) = 0 := by
      rw [List.countP_eq_zero]
      intro a ha
      simpa using h a ha
    rw [List.countP_append, h0]
    simp [List.countP_cons]

/-- C1 witness: two charges of payment PAY1 for order O1 against the empty
store return equal results and leave one payment row. -/
theorem claim_C1_witness :
    (1 ≤ 2 ∧ noPaymentFor DB.empty "PAY1") ∧
    ((∀ r ∈ (chargeRuns ⟨"O1", [⟨"ABC", some 1⟩], none⟩ "PAY1" 2 DB.empty).1,
        r = (payment_charged ⟨"O1", [⟨"ABC", some 1⟩], none⟩ "PAY1" DB.empty).1) ∧
     (chargeRuns ⟨"O1", [⟨"ABC", some 1⟩], none⟩ "PAY1" 2 DB.empty).2 =
       (payment_charged ⟨"O1", [⟨"ABC", some 1⟩], none⟩ "PAY1" DB.empty).2 ∧
     ((chargeRuns ⟨"O1", [⟨"ABC", some 1⟩], none⟩ "PAY1" 2 DB.empty).2).payments.countP
       (fun p => p.payment_id == "PAY1") = 1) :=
  ⟨⟨by decide, by decide⟩,
   claim_C1_charge_idempotent ⟨"O1", [⟨"ABC", some 1⟩], none⟩ "PAY1" DB.empty 2
     (by decide) (by decide)⟩

/-- C10: a freshly created payment record (no row for the id yet) records the
amount `sum(i.get("qty", 1) for i in items)`, both in the returned result and
in the stored row; for the payload produced by the receive step (one item of
qty 1) the charged amount is 1. -/
theorem claim_C10_amount_law (order : Order) (oid pid : String) (db : DB)
    (h : noPaymentFor db pid) :
    (payment_charged order pid db).1.amount =
        (order.items.map (fun i => i.qty.getD 1)).sum ∧
    (∃ r ∈ ((payment_charged order pid db).2).payments,
        r.payment_id = pid ∧
        r.amount = (order.items.map (fun i => i.qty.getD 1)).sum) ∧
    (payment_charged (order_received oid db).1 pid db).1.amount = 1 := by
  refine ⟨?_, ?_, ?_⟩
  · rw [payment_charged_fresh h]
  · rw [payment_charged_fresh h]
    refine ⟨⟨pid, order.order_id, "charged",
      (order.items.map (fun i => i.qty.getD 1)).sum⟩, ?_, rfl, rfl⟩
    show _ ∈ db.payments ++ [_]
    simp
  · rw [@payment_charged_fresh (order_received oid db).1 _ _ h]
    simp [order_received]

/-- C10 witness: the amount law evaluated at order O1, payment PAY1, empty
store. -/
theorem claim_C10_witness :
    noPaymentFor DB.empty "PAY1" ∧
    ((payment_charged ⟨"O1", [⟨"A", none⟩, ⟨"B", some 4⟩], none⟩ "PAY1" DB.empty).1.amount =
        ((([⟨"A", none⟩, ⟨"B", some 4⟩] : List Item)).map (fun i => i.qty.getD 1)).sum ∧
     (∃ r ∈ ((payment_charged ⟨"O1", [⟨"A", none⟩, ⟨"B", some 4⟩], none⟩ "PAY1"
          DB.empty).2).payments,
        r.payment_id = "PAY1" ∧
        r.amount = ((([⟨"A", none⟩, ⟨"B", some 4⟩] : List Item)).map
          (fun i => i.qty.getD 1)).sum) ∧
     (payment_charged (order_received "O1" DB.empty).1 "PAY1" DB.empty).1.amount = 1) :=
  ⟨by decide,
   claim_C10_amount_law ⟨"O1", [⟨"A", none⟩, ⟨"B", some 4⟩], none⟩ "O1" "PAY1" DB.empty
     (by decide)⟩

/-- The Order Saga's in-memory control state (`OrderWorkflow.__init__`). -/
structure ControlState where
  order : Option Order
  cancelled : Bool
  manual_approval_received : Bool
  address_updated : Bool
  dispatch_failed_reason : Option String
  shipping_retry_count : Nat
deriving DecidableEq, Repr

/-- The initial control state. -/
def ControlState.init : ControlState := ⟨none, false, false, false, none, 0⟩

/-- Signal handler `cancel_order`: sets the cancelled flag. -/
def OrderWorkflow.cancel_order (s : ControlState) : ControlState :=
  { s with cancelled := true }

/-- Signal handler `approve_order`: sets the manual-approval flag. -/
def OrderWorkflow.approve_order (s : ControlState) : ControlState :=
  { s with manual_approval_received := true }

/-- Signal handler `update_address`: only when an order value exists, attach
the address and set the address-updated flag; otherwise do nothing. -/
def OrderWorkflow.update_address (s : ControlState) (new_address : Address) : ControlState :=
  match s.order with
  | some o =>
      { s with order := some { o with address := some new_address }, address_updated := true }
  | none => s

/-- Signal handler `dispatch_failed`: records the reported reason. -/
def OrderWorkflow.dispatch_failed (s : ControlState) (reason : String) : ControlState :=
  { s with dispatch_failed_reason := some reason }

/-- The snapshot dict returned by the `get_status` query. -/
structure Status where
  order : Option Order
  cancelled : Bool
  approved : Bool
  address_updated : Bool
  shipping_retry_count : Nat
  dispatch_failed_reason : Option String
deriving DecidableEq, Repr

/-- Query handler `get_status`: builds the snapshot from the current control
state. -/
def OrderWorkflow.get_status (s : ControlState) : Status :=
  ⟨s.order, s.cancelled, s.manual_approval_received, s.address_updated,
   s.shipping_retry_count, s.dispatch_failed_reason⟩

/-- The query handler as a state transition: its body contains no assignment,
so the state it leaves behind is the state it was given. -/
def OrderWorkflow.get_status_query (s : ControlState) : Status × ControlState :=
  (OrderWorkflow.get_status s, s)

/-- A signal delivered from outside to the Order Saga. -/
inductive Sig
  | cancel
  | approve
  | updateAddress (a : Address)
  | dispatchFailed (r : String)
deriving DecidableEq, Repr

/-- Dispatch one signal to its handler. -/
def applySig (g : Sig) (s : ControlState) : ControlState :=
  match g with
  | .cancel => OrderWorkflow.cancel_order s
  | .approve => OrderWorkflow.approve_order s
  | .updateAddress a => OrderWorkflow.update_address s a
  | .dispatchFailed r => OrderWorkflow.dispatch_failed s r

/-- Process a batch of signals in arrival order. -/
def applySigs (gs : List Sig) (s : ControlState) : ControlState :=
  gs.foldl (fun st g => applySig g st) s

/-- Every mutation of the control state performed anywhere in the workflow
class: the four signal handlers, plus the three writes the main execution
path performs (the order assignment after the receive step, the clearing of
the dispatch-failure reason at the top of each shipping attempt, and the
retry-counter increment). -/
inductive Op
  | cancelSig
  | approveSig
  | updateAddr (a : Address)
  | dispatchFail (r : String)
  | setOrder (o : Order)
  | clearDispatchReason
  | incRetry
deriving DecidableEq, Repr

/-- Apply one operation to the control state. -/
def applyOp (op : Op) (s : ControlState) : ControlState :=
  match op with
  | .cancelSig => OrderWorkflow.cancel_order s
  | .approveSig => OrderWorkflow.approve_order s
  | .updateAddr a => OrderWorkflow.update_address s a
  | .dispatchFail r => OrderWorkflow.dispatch_failed s r
  | .setOrder o => { s with order := some o }
  | .clearDispatchReason => { s with dispatch_failed_reason := none }
  | .incRetry => { s with shipping_retry_count := s.shipping_retry_count + 1 }

/-- Apply a sequence of operations in order. -/
def applyOps (ops : List Op) (s : ControlState) : ControlState :=
  ops.foldl (fun st op => applyOp op st) s

-- The flags that can only move from false to true.

/-- C6: under every operation the workflow performs on its control state
(each signal handler and each main-path write), a cancelled flag that is true
stays true and an approval flag that is true stays true; and a repeated
cancel or approve signal leaves the state exactly where the first one put
it. -/
theorem claim_C6_flags_monotone (op : Op) (s : ControlState) :
    (s.cancelled = true → (applyOp op s).cancelled = true) ∧
    (s.manual_approval_received = true →
      (applyOp op s).manual_approval_received = true) ∧
    applyOp .cancelSig (applyOp .cancelSig s) = applyOp .cancelSig s ∧
    applyOp .approveSig (applyOp .approveSig s) = applyOp .approveSig s := by
  refine ⟨?_, ?_, ?_, ?_⟩
  · intro h
    cases op <;>
      simp_all [applyOp, OrderWorkflow.cancel_order, OrderWorkflow.approve_order,
        OrderWorkflow.update_address, OrderWorkflow.dispatch_failed]
    case updateAddr a =>
      cases s.order <;> simp_all
  · intro h
    cases op <;>
      simp_all [applyOp, OrderWorkflow.cancel_order, OrderWorkflow.approve_order,
        OrderWorkflow.update_address, OrderWorkflow.dispatch_failed]
    case updateAddr a =>
      cases s.order <;> simp_all
  · simp [applyOp, OrderWorkflow.cancel_order]
  · simp [applyOp, OrderWorkflow.approve_order]

/-- C6 witness: the flag laws evaluated at a state with both flags set. -/
theorem claim_C6_witness :
    ((⟨none, true, true, false, none, 0⟩ : ControlState).cancelled = true ∧
      (applyOp (.updateAddr []) ⟨none, true, true, false, none, 0⟩).cancelled = true) ∧
    ((⟨none, true, true, false, none, 0⟩ : ControlState).manual_approval_received = true ∧
      (applyOp (.updateAddr []) ⟨none, true, true, false, none, 0⟩).manual_approval_received
        = true) ∧
    applyOp .cancelSig (applyOp .cancelSig ControlState.init) =
      applyOp .cancelSig ControlState.init ∧
    applyOp .approveSig (applyOp .approveSig ControlState.init) =
      applyOp .approveSig ControlState.init :=
  ⟨⟨rfl, (claim_C6_flags_monotone (.updateAddr []) ⟨none, true, true, false, none, 0⟩).1 rfl⟩,
   ⟨rfl, (claim_C6_flags_monotone (.updateAddr [])
     ⟨none, true, true, false, none, 0⟩).2.1 rfl⟩,
   (claim_C6_flags_monotone .cancelSig ControlState.init).2.2.1,
   (claim_C6_flags_monotone .approveSig ControlState.init).2.2.2⟩

/-- As long as no order value is ever written, the order stays absent and the
address-updated flag stays false. -/
theorem no_setOrder_invariant (ops : List Op) :
    ∀ s : ControlState, (∀ o, Op.setOrder o ∉ ops) → s.order = none →
      s.address_updated = false →
      (applyOps ops s).order = none ∧ (applyOps ops s).address_updated = false := by
  induction ops with
  | nil => intro s _ h1 h2; exact ⟨h1, h2⟩
  | cons op rest ih =>
      intro s hno h1 h2
      have hrest : ∀ o, Op.setOrder o ∉ rest := by
        intro o ho
        exact hno o (by simp [ho])
      have hstep : (applyOp op s).order = none ∧ (applyOp op s).address_updated = false := by
        cases op with
        | setOrder o => exact absurd (by simp) (hno o)
        | updateAddr a =>
            simp [applyOp, OrderWorkflow.update_address, h1, h2]
        | _ =>
            simp_all [applyOp, OrderWorkflow.cancel_order, OrderWorkflow.approve_order,
              OrderWorkflow.dispatch_failed]
      exact ih (applyOp op s) hrest hstep.1 hstep.2

/-- C8: the `update_address` handler attaches the address and sets the flag
when an order value exists, does nothing at all when none exists, and from
the initial state the reported `address_updated` stays false under any
operation sequence that never writes an order value. -/
theorem claim_C8_update_address (s : ControlState) (a : Address) :
    (s.order = none → OrderWorkflow.update_address s a = s) ∧
    (∀ o, s.order = some o →
      OrderWorkflow.update_address s a =
        { s with order := some { o with address := some a }, address_updated := true }) ∧
    (∀ ops : List Op, (∀ o, Op.setOrder o ∉ ops) →
      (OrderWorkflow.get_status (applyOps ops ControlState.init)).address_updated = false) := by
  refine ⟨?_, ?_, ?_⟩
  · intro h
    simp [OrderWorkflow.update_address, h]
  · intro o h
    simp [OrderWorkflow.update_address, h]
  · intro ops hno
    have := no_setOrder_invariant ops ControlState.init hno rfl rfl
    simp [OrderWorkflow.get_status, this.2]

/-- C8 witness: an update delivered before any order exists is ignored and
the status keeps reporting address_updated = false. -/
theorem claim_C8_witness :
    (ControlState.init.order = none ∧
      OrderWorkflow.update_address ControlState.init [("street", "1 Main St")] =
        ControlState.init) ∧
    ((∀ o, Op.setOrder o ∉ [Op.updateAddr [("street", "1 Main St")], Op.cancelSig]) ∧
      (OrderWorkflow.get_status
        (applyOps [Op.updateAddr [("street", "1 Main St")], Op.cancelSig]
          ControlState.init)).address_updated = false) :=
  ⟨⟨rfl, (claim_C8_update_address ControlState.init [("street", "1 Main St")]).1 rfl⟩,
   ⟨by intro o; simp,
    (claim_C8_update_address ControlState.init [("street", "1 Main St")]).2.2
      [Op.updateAddr [("street", "1 Main St")], Op.cancelSig] (by intro o; simp)⟩⟩

/-- C9: the `get_status` query leaves the control state exactly as it found
it and returns a snapshot holding exactly the six advertised fields, each
equal to the corresponding control-state value. -/
theorem claim_C9_get_status_pure (s : ControlState) :
    OrderWorkflow.get_status_query s =
      (⟨s.order, s.cancelled, s.manual_approval_received, s.address_updated,
        s.shipping_retry_count, s.dispatch_failed_reason⟩, s) := rfl

/-- `ShippingWorkflow.run`: prepare-package then dispatch-carrier, each
through the Step Executor. `flakyPrep`/`flakyDisp` give the executor-level
outcome of each step (`none` = it eventually succeeded and its store effect
ran once, `some e` = its retries were exhausted with failure `e`, in which
case no store effect ran because `flaky_call` precedes every store write).
On a step failure the sub-saga attempts a best-effort `dispatch_failed`
notification to the parent (`notifyDelivers` tells whether that delivery
itself succeeds; on failure it is only logged) and then re-raises the step's
failure. The third output component records whether the parent was actually
notified. -/
def ShippingWorkflow.run (flakyPrep flakyDisp : Option String) (notifyDelivers : Bool)
    (order : Order) (db : DB) : Except String String × DB × Bool :=
  match flakyPrep with
  | some e => (.error e, db, notifyDelivers)
  | none =>
      let p := package_prepared order db
      match flakyDisp with
      | some e => (.error e, p.2, notifyDelivers)
      | none =>
          let d := carrier_dispatched order p.2
          (.ok d.1, d.2, false)

/-- C7: when prepare-package or dispatch-carrier fails after the executor's
retries are exhausted, the sub-saga re-raises exactly that failure to its
caller whether the best-effort parent notification is delivered or not; the
notification reaches the parent exactly when its own delivery succeeds. -/
theorem claim_C7_ship_failure_propagates (flakyPrep flakyDisp : Option String)
    (order : Order) (db : DB) (e : String)
    (h : flakyPrep = some e ∨ (flakyPrep = none ∧ flakyDisp = some e)) :
    (ShippingWorkflow.run flakyPrep flakyDisp true order db).1 = .error e ∧
    (ShippingWorkflow.run flakyPrep flakyDisp false order db).1 = .error e ∧
    (ShippingWorkflow.run flakyPrep flakyDisp true order db).2.2 = true ∧
    (ShippingWorkflow.run flakyPrep flakyDisp false order db).2.2 = false := by
  rcases h with h | ⟨h1, h2⟩
  · subst h
    simp [ShippingWorkflow.run]
  · subst h1; subst h2
    simp [ShippingWorkflow.run]

/-- C7 witness: a dispatch-carrier failure is propagated under both
notification outcomes. -/
theorem claim_C7_witness :
    ((none : Option String) = some "carrier down" ∨
      ((none : Option String) = none ∧ (some "carrier down" : Option String) =
        some "carrier down")) ∧
    ((ShippingWorkflow.run none (some "carrier down") true ⟨"O1", [], none⟩ DB.empty).1 =
        .error "carrier down" ∧
     (ShippingWorkflow.run none (some "carrier down") false ⟨"O1", [], none⟩ DB.empty).1 =
        .error "carrier down" ∧
     (ShippingWorkflow.run none (some "carrier down") true ⟨"O1", [], none⟩
        DB.empty).2.2 = true ∧
     (ShippingWorkflow.run none (some "carrier down") false ⟨"O1", [], none⟩
        DB.empty).2.2 = false) :=
  ⟨Or.inr ⟨rfl, rfl⟩,
   claim_C7_ship_failure_propagates none (some "carrier down") ⟨"O1", [], none⟩ DB.empty
     "carrier down" (Or.inr ⟨rfl, rfl⟩)⟩

/-- `workflow.wait_condition(lambda: approval or cancelled, timeout=8)`.
The signal list holds the signals processed while the saga is suspended
here, in arrival order; the wait resolves as soon as the condition holds
(also immediately, before any of them, if it already holds). The Bool is
true when the wait resolved by the condition and false when the review
window timed out (the code catches the wait's timeout error and proceeds);
the remaining list holds the signals that had not yet arrived when the wait
resolved, to be processed at the next suspension point. -/
def reviewWait : ControlState → List Sig → Bool × ControlState × List Sig
  | s, [] => (s.manual_approval_received || s.cancelled, s, [])
  | s, g :: gs =>
      if s.manual_approval_received || s.cancelled then (true, s, g :: gs)
      else reviewWait (applySig g s) gs

/-- `workflow.wait_condition(lambda: reason is not None, timeout=2)` inside
the shipping retry loop; the timeout is swallowed (`except ... pass`), so
only the resulting state matters. -/
def dispatchWait : ControlState → List Sig → ControlState
  | s, [] => s
  | s, g :: gs =>
      if s.dispatch_failed_reason.isSome then s else dispatchWait (applySig g s) gs

/-- Step-Executor-level outcome of every effect invocation in one run of the
saga: `none` means the step eventually succeeded (performing its store
effect once), `some e` means its retries were exhausted and the failure `e`
surfaced to the workflow. `prep`, `disp` and `notify` are indexed by the
shipping attempt number. -/
structure Flaky where
  receive : Option String
  validate : Option String
  charge : Option String
  prep : Nat → Option String
  disp : Nat → Option String
  notify : Nat → Bool

/-- Which signals get processed while the saga is suspended at each of its
await points. -/
structure Sched where
  duringReceive : List Sig
  duringValidate : List Sig
  duringReview : List Sig
  duringCharge : List Sig
  duringShip : Nat → List Sig
  duringShipWait : Nat → List Sig

/-- The activity / child-workflow invocations a run performs, in order. -/
inductive StepName
  | receiveStep
  | validateStep
  | chargeStep
  | shipChild (i : Nat)
deriving DecidableEq, Repr

/-- `max_shipping_retries = 3`. -/
def maxShippingRetries : Nat := 3

/-- Control state right after the receive step's result is assigned
(signals delivered during the receive await were handled first, while no
order value existed yet). -/
def stateAfterReceive (sc : Sched) (ord : Order) : ControlState :=
  { applySigs sc.duringReceive ControlState.init with order := some ord }

/-- Control state at the cancellation checkpoint after the validate step. -/
def stateAfterValidate (sc : Sched) (ord : Order) : ControlState :=
  applySigs sc.duringValidate (stateAfterReceive sc ord)

/-- The manual-review wait, entered with the post-validate state. -/
def reviewPhase (sc : Sched) (ord : Order) : Bool × ControlState × List Sig :=
  reviewWait (stateAfterValidate sc ord) sc.duringReview

/-- The control state after a failed shipping attempt `i` starting from
state `s`: the failure reason is cleared at the top of the attempt, the
signals delivered during the child run are processed, the retry counter is
incremented, and the bounded wait for a `dispatch_failed` hint runs. -/
def shipFailState (sc : Sched) (i : Nat) (s : ControlState) : ControlState :=
  let s1 := { s with dispatch_failed_reason := none }
  let s2 := applySigs (sc.duringShip i) s1
  let s3 := { s2 with shipping_retry_count := s2.shipping_retry_count + 1 }
  dispatchWait s3 (sc.duringShipWait i)

/-- `OrderWorkflow._handle_shipping_with_retry`, with explicit fuel standing
for the bound the `while self._shipping_retry_count < max_shipping_retries`
loop enforces (the loop body always either returns, raises, or increments
the counter, so `maxShippingRetries` fuel is never exhausted; running out of
fuel lands on the same `raise Exception("Shipping retry logic error")` line
that an externally violated loop guard would). Returns the result, the
final control state, the final store, and the attempt indices for which a
shipping child workflow was started. -/
def OrderWorkflow.handle_shipping_with_retry (fl : Flaky) (sc : Sched) :
    Nat → ControlState → DB → Except String String × ControlState × DB × List Nat
  | 0, s, db => (.error "Shipping retry logic error", s, db, [])
  | fuel + 1, s, db =>
      if s.shipping_retry_count < maxShippingRetries then
        let i := s.shipping_retry_count
        let s1 := { s with dispatch_failed_reason := none }
        match s1.order with
        | none => (.error "missing order", s1, db, [i])
        | some o =>
            let child := ShippingWorkflow.run (fl.prep i) (fl.disp i) (fl.notify i) o db
            match child.1 with
            | .ok r => (.ok r, applySigs (sc.duringShip i) s1, child.2.1, [i])
            | .error e =>
                let s4 := shipFailState sc i s
                if maxShippingRetries ≤ s4.shipping_retry_count then
                  (.error ("Shipping failed after " ++ toString maxShippingRetries ++
                      " attempts: " ++ e), s4, child.2.1, [i])
                else
                  let rest := OrderWorkflow.handle_shipping_with_retry fl sc fuel s4 child.2.1
                  (rest.1, rest.2.1, rest.2.2.1, i :: rest.2.2.2)
      else (.error "Shipping retry logic error", s, db, [])

/-- `OrderWorkflow.run`: receive → cancellation checkpoint → validate →
cancellation checkpoint → manual-review wait (cancel returns, approve or a
handled timeout proceeds) → charge payment → shipping retry loop. The outer
`except` only logs and re-raises, so a step failure surfaces unchanged. -/
def OrderWorkflow.run (order_id payment_id : String) (fl : Flaky) (sc : Sched) (db : DB) :
    Except String String × ControlState × DB × List StepName :=
  match fl.receive with
  | some e => (.error e, applySigs sc.duringReceive ControlState.init, db, [.receiveStep])
  | none =>
      let rcv := order_received order_id db
      let s1 := stateAfterReceive sc rcv.1
      if s1.cancelled then (.ok "Order cancelled", s1, rcv.2, [.receiveStep])
      else
        let s2 := stateAfterValidate sc rcv.1
        match (match fl.validate with
               | some e => Except.error e
               | none => order_validated rcv.1 rcv.2) with
        | .error e => (.error e, s2, rcv.2, [.receiveStep, .validateStep])
        | .ok v =>
            if s2.cancelled then
              (.ok "Order cancelled", s2, v.2, [.receiveStep, .validateStep])
            else
              let w := reviewPhase sc rcv.1
              if w.1 && w.2.1.cancelled then
                (.ok "Order cancelled", w.2.1, v.2, [.receiveStep, .validateStep])
              else
                let s4 := applySigs (w.2.2 ++ sc.duringCharge) w.2.1
                match fl.charge with
                | some e => (.error e, s4, v.2, [.receiveStep, .validateStep, .chargeStep])
                | none =>
                    match w.2.1.order with
                    | none =>
                        (.error "missing order", s4, v.2,
                          [.receiveStep, .validateStep, .chargeStep])
                    | some oCur =>
                        let pay := payment_charged oCur payment_id v.2
                        let ship := OrderWorkflow.handle_shipping_with_retry fl sc
                          maxShippingRetries s4 pay.2
                        match ship.1 with
                        | .ok r =>
                            (.ok ("Order completed: " ++ r), ship.2.1, ship.2.2.1,
                              [.receiveStep, .validateStep, .chargeStep] ++
                                ship.2.2.2.map StepName.shipChild)
                        | .error e =>
                            (.error e, ship.2.1, ship.2.2.1,
                              [.receiveStep, .validateStep, .chargeStep] ++
                                ship.2.2.2.map StepName.shipChild)

/-- The result the parent's retry loop sees from shipping attempt `i`,
determined by the executor-level outcomes of the two child steps. -/
def childOutcome (fl : Flaky) (i : Nat) : Except String String :=
  match fl.prep i with
  | some e => .error e
  | none =>
      match fl.disp i with
      | some e => .error e
      | none => .ok "Dispatched"

theorem ShippingWorkflow.run_fst (fp fd : Option String) (nb : Bool) (o : Order) (db : DB) :
    (ShippingWorkflow.run fp fd nb o db).1 =
      (match fp with
       | some e => .error e
       | none => match fd with
                 | some e => .error e
                 | none => .ok "Dispatched") := by
  cases fp <;> cases fd <;> rfl

-- Preservation lemmas about signal processing.

theorem applySig_count (g : Sig) (s : ControlState) :
    (applySig g s).shipping_retry_count = s.shipping_retry_count := by
  cases g <;>
    simp [applySig, OrderWorkflow.cancel_order, OrderWorkflow.approve_order,
      OrderWorkflow.update_address, OrderWorkflow.dispatch_failed]
  case updateAddress a => cases s.order <;> simp

theorem applySigs_count (gs : List Sig) : ∀ s : ControlState,
    (applySigs gs s).shipping_retry_count = s.shipping_retry_count := by
  induction gs with
  | nil => intro s; rfl
  | cons g gs ih =>
      intro s
      show (applySigs gs (applySig g s)).shipping_retry_count = _
      rw [ih, applySig_count]

theorem applySig_cancelled_of_ne {g : Sig} (h : g ≠ .cancel) (s : ControlState) :
    (applySig g s).cancelled = s.cancelled := by
  cases g <;>
    simp_all [applySig, OrderWorkflow.approve_order,
      OrderWorkflow.update_address, OrderWorkflow.dispatch_failed]
  case updateAddress a => cases s.order <;> simp

theorem applySigs_cancelled_of_not_mem {gs : List Sig} (h : Sig.cancel ∉ gs) :
    ∀ s : ControlState, (applySigs gs s).cancelled = s.cancelled := by
  induction gs with
  | nil => intro s; rfl
  | cons g gs ih =>
      intro s
      have hg : g ≠ .cancel := fun hc => h (by simp [hc])
      have hgs : Sig.cancel ∉ gs := fun hc => h (by simp [hc])
      show (applySigs gs (applySig g s)).cancelled = _
      rw [ih hgs, applySig_cancelled_of_ne hg]

theorem applySig_approved_of_ne {g : Sig} (h : g ≠ .approve) (s : ControlState) :
    (applySig g s).manual_approval_received = s.manual_approval_received := by
  cases g <;>
    simp_all [applySig, OrderWorkflow.cancel_order,
      OrderWorkflow.update_address, OrderWorkflow.dispatch_failed]
  case updateAddress a => cases s.order <;> simp

theorem applySigs_approved_of_not_mem {gs : List Sig} (h : Sig.approve ∉ gs) :
    ∀ s : ControlState, (applySigs gs s).manual_approval_received =
      s.manual_approval_received := by
  induction gs with
  | nil => intro s; rfl
  | cons g gs ih =>
      intro s
      have hg : g ≠ .approve := fun hc => h (by simp [hc])
      have hgs : Sig.approve ∉ gs := fun hc => h (by simp [hc])
      show (applySigs gs (applySig g s)).manual_approval_received = _
      rw [ih hgs, applySig_approved_of_ne hg]

theorem applySig_order_some {g : Sig} {s : ControlState} {o : Order}
    (h : s.order = some o) : ∃ o', (applySig g s).order = some o' := by
  cases g <;>
    simp_all [applySig, OrderWorkflow.cancel_order, OrderWorkflow.approve_order,
      OrderWorkflow.update_address, OrderWorkflow.dispatch_failed]

theorem applySigs_order_some {gs : List Sig} : ∀ {s : ControlState} {o : Order},
    s.order = some o → ∃ o', (applySigs gs s).order = some o' := by
  induction gs with
  | nil => intro s o h; exact ⟨o, h⟩
  | cons g gs ih =>
      intro s o h
      obtain ⟨o1, h1⟩ := applySig_order_some (g := g) h
      exact ih h1

theorem dispatchWait_count {gs : List Sig} : ∀ {s : ControlState},
    (dispatchWait s gs).shipping_retry_count = s.shipping_retry_count := by
  induction gs with
  | nil => intro s; rfl
  | cons g gs ih =>
      intro s
      show (if s.dispatch_failed_reason.isSome then s
            else dispatchWait (applySig g s) gs).shipping_retry_count = _
      split
      · rfl
      · rw [ih, applySig_count]

theorem dispatchWait_order_some {gs : List Sig} : ∀ {s : ControlState} {o : Order},
    s.order = some o → ∃ o', (dispatchWait s gs).order = some o' := by
  induction gs with
  | nil => intro s o h; exact ⟨o, h⟩
  | cons g gs ih =>
      intro s o h
      show ∃ o', (if s.dispatch_failed_reason.isSome then s
            else dispatchWait (applySig g s) gs).order = some o'
      split
      · exact ⟨o, h⟩
      · obtain ⟨o1, h1⟩ := applySig_order_some (g := g) h
        exact ih h1

theorem reviewWait_count {gs : List Sig} : ∀ {s : ControlState},
    ((reviewWait s gs).2.1).shipping_retry_count = s.shipping_retry_count := by
  induction gs with
  | nil => intro s; rfl
  | cons g gs ih =>
      intro s
      show ((if s.manual_approval_received || s.cancelled then (true, s, g :: gs)
             else reviewWait (applySig g s) gs).2.1).shipping_retry_count = _
      split
      · rfl
      · rw [ih, applySig_count]

theorem reviewWait_order_some {gs : List Sig} : ∀ {s : ControlState} {o : Order},
    s.order = some o → ∃ o', ((reviewWait s gs).2.1).order = some o' := by
  induction gs with
  | nil => intro s o h; exact ⟨o, h⟩
  | cons g gs ih =>
      intro s o h
      show ∃ o', ((if s.manual_approval_received || s.cancelled then (true, s, g :: gs)
             else reviewWait (applySig g s) gs).2.1).order = some o'
      split
      · exact ⟨o, h⟩
      · obtain ⟨o1, h1⟩ := applySig_order_some (g := g) h
        exact ih h1

/-- As long as no cancel signal is processed during the review wait, the
cancelled flag stays where it was on entry. -/
theorem reviewWait_cancelled_of_not_mem {gs : List Sig} (h : Sig.cancel ∉ gs) :
    ∀ {s : ControlState}, ((reviewWait s gs).2.1).cancelled = s.cancelled := by
  induction gs with
  | nil => intro s; rfl
  | cons g gs ih =>
      intro s
      have hg : g ≠ .cancel := fun hc => h (by simp [hc])
      have hgs : Sig.cancel ∉ gs := fun hc => h (by simp [hc])
      show ((if s.manual_approval_received || s.cancelled then (true, s, g :: gs)
             else reviewWait (applySig g s) gs).2.1).cancelled = _
      split
      · rfl
      · rw [ih hgs, applySig_cancelled_of_ne hg]

/-- When neither an approve nor a cancel signal is processed during the
review wait and neither flag is set on entry, the wait runs through every
delivered signal and then times out. -/
theorem reviewWait_timeout {gs : List Sig} (hc : Sig.cancel ∉ gs)
    (ha : Sig.approve ∉ gs) :
    ∀ {s : ControlState}, s.cancelled = false → s.manual_approval_received = false →
      reviewWait s gs = (false, applySigs gs s, []) := by
  induction gs with
  | nil =>
      intro s h1 h2
      show (s.manual_approval_received || s.cancelled, s, []) = _
      rw [h1, h2]
      rfl
  | cons g gs ih =>
      intro s h1 h2
      have hg1 : g ≠ .cancel := fun h => hc (by simp [h])
      have hg2 : g ≠ .approve := fun h => ha (by simp [h])
      have hgs1 : Sig.cancel ∉ gs := fun h => hc (by simp [h])
      have hgs2 : Sig.approve ∉ gs := fun h => ha (by simp [h])
      show (if s.manual_approval_received || s.cancelled then (true, s, g :: gs)
            else reviewWait (applySig g s) gs) = _
      rw [h1, h2]
      show reviewWait (applySig g s) gs = _
      rw [ih hgs1 hgs2 (by rw [applySig_cancelled_of_ne hg1, h1])
        (by rw [applySig_approved_of_ne hg2, h2])]
      rfl

/-- Processing a batch that contains a cancel signal leaves the cancelled
flag set. -/
theorem applySigs_cancelled_of_mem {gs : List Sig} (h : Sig.cancel ∈ gs) :
    ∀ s : ControlState, (applySigs gs s).cancelled = true := by
  induction gs with
  | nil => cases h
  | cons g gs ih =>
      intro s
      rcases List.mem_cons.mp h with h1 | h1
      · subst h1
        show (applySigs gs (OrderWorkflow.cancel_order s)).cancelled = true
        rcases Decidable.em (Sig.cancel ∈ gs) with hm | hm
        · exact ih hm (OrderWorkflow.cancel_order s)
        · rw [applySigs_cancelled_of_not_mem hm]
          rfl
      · exact ih h1 _

theorem insertOrder_any (db : DB) (row : OrderRow) :
    ((insertOrderIfAbsent db row).orders.any (fun r => r.id == row.id)) = true := by
  unfold insertOrderIfAbsent
  split
  · assumption
  · simp [List.any_append]

/-- When the receive, validate and charge steps all succeed and no cancel
signal is processed before the charge step is scheduled, the saga reaches
the shipping retry loop: its overall result is the loop's result (wrapped in
"Order completed: " on success) and its step list is receive, validate,
charge followed by the loop's child-workflow attempts. The loop starts on a
state with retry counter 0 and an order value present. -/
theorem run_reaches_shipping (oid pid : String) (fl : Flaky) (sc : Sched) (db : DB)
    (hrecv : fl.receive = none) (hval : fl.validate = none) (hchg : fl.charge = none)
    (hc1 : Sig.cancel ∉ sc.duringReceive) (hc2 : Sig.cancel ∉ sc.duringValidate)
    (hc3 : Sig.cancel ∉ sc.duringReview) :
    ∃ sPre dbPre, sPre.shipping_retry_count = 0 ∧ (∃ oC, sPre.order = some oC) ∧
      (∀ r, (OrderWorkflow.handle_shipping_with_retry fl sc maxShippingRetries
          sPre dbPre).1 = .ok r →
        (OrderWorkflow.run oid pid fl sc db).1 = .ok ("Order completed: " ++ r)) ∧
      (∀ e, (OrderWorkflow.handle_shipping_with_retry fl sc maxShippingRetries
          sPre dbPre).1 = .error e →
        (OrderWorkflow.run oid pid fl sc db).1 = .error e) ∧
      (OrderWorkflow.run oid pid fl sc db).2.2.2 =
        [.receiveStep, .validateStep, .chargeStep] ++
          (OrderWorkflow.handle_shipping_with_retry fl sc maxShippingRetries
            sPre dbPre).2.2.2.map StepName.shipChild := by
  have hs1c : (stateAfterReceive sc (order_received oid db).1).cancelled = false := by
    show (applySigs sc.duringReceive ControlState.init).cancelled = false
    rw [applySigs_cancelled_of_not_mem hc1]
    rfl
  have hs2c : (stateAfterValidate sc (order_received oid db).1).cancelled = false := by
    show (applySigs sc.duringValidate (stateAfterReceive sc (order_received oid db).1)).cancelled
      = false
    rw [applySigs_cancelled_of_not_mem hc2, hs1c]
  have hwc : ((reviewPhase sc (order_received oid db).1).2.1).cancelled = false := by
    show ((reviewWait (stateAfterValidate sc (order_received oid db).1)
      sc.duringReview).2.1).cancelled = false
    rw [reviewWait_cancelled_of_not_mem hc3, hs2c]
  have hs1o : (stateAfterReceive sc (order_received oid db).1).order =
      some (order_received oid db).1 := rfl
  obtain ⟨o2, ho2⟩ : ∃ o2, (stateAfterValidate sc (order_received oid db).1).order = some o2 :=
    applySigs_order_some hs1o
  obtain ⟨oCur, hoCur⟩ : ∃ oC, ((reviewPhase sc (order_received oid db).1).2.1).order =
      some oC := reviewWait_order_some ho2
  have hany : ((order_received oid db).2).orders.any
      (fun r => r.id == ((order_received oid db).1).order_id) = true := by
    show ((insertOrderIfAbsent db ⟨oid, "received", [⟨"ABC", some 1⟩]⟩).orders.any
      (fun r => r.id == oid)) = true
    exact insertOrder_any db ⟨oid, "received", [⟨"ABC", some 1⟩]⟩
  have hval_ok : order_validated (order_received oid db).1 (order_received oid db).2 =
      .ok (true, updateOrderState (order_received oid db).2 oid "validated") := by
    unfold order_validated
    rw [hany]
    rfl
  have hcount : (applySigs ((reviewPhase sc (order_received oid db).1).2.2 ++ sc.duringCharge)
      (reviewPhase sc (order_received oid db).1).2.1).shipping_retry_count = 0 := by
    rw [applySigs_count]
    show ((reviewWait (stateAfterValidate sc (order_received oid db).1)
      sc.duringReview).2.1).shipping_retry_count = 0
    rw [reviewWait_count]
    show (applySigs sc.duringValidate (stateAfterReceive sc
      (order_received oid db).1)).shipping_retry_count = 0
    rw [applySigs_count]
    show (applySigs sc.duringReceive ControlState.init).shipping_retry_count = 0
    rw [applySigs_count]
    rfl
  obtain ⟨oPre, hoPre⟩ : ∃ oP, (applySigs ((reviewPhase sc (order_received oid db).1).2.2 ++
      sc.duringCharge) (reviewPhase sc (order_received oid db).1).2.1).order = some oP :=
    applySigs_order_some hoCur
  refine ⟨applySigs ((reviewPhase sc (order_received oid db).1).2.2 ++ sc.duringCharge)
      (reviewPhase sc (order_received oid db).1).2.1,
    (payment_charged oCur pid (updateOrderState (order_received oid db).2 oid "validated")).2,
    hcount, ⟨oPre, hoPre⟩, ?_, ?_, ?_⟩
  · intro r hr
    unfold OrderWorkflow.run
    rw [hrecv, hval]
    simp only [hval_ok, hs1c, hs2c, hwc, hoCur, hchg, Bool.and_false]
    simp [hr]
  · intro e he
    unfold OrderWorkflow.run
    rw [hrecv, hval]
    simp only [hval_ok, hs1c, hs2c, hwc, hoCur, hchg, Bool.and_false]
    simp [he]
  · unfold OrderWorkflow.run
    rw [hrecv, hval]
    simp only [hval_ok, hs1c, hs2c, hwc, hoCur, hchg, Bool.and_false]
    simp
    split <;> rfl

-- Facts about the shipping retry loop.

theorem shipLoop_length_le (fl : Flaky) (sc : Sched) :
    ∀ (fuel : Nat) (s : ControlState) (db : DB),
      ((OrderWorkflow.handle_shipping_with_retry fl sc fuel s db).2.2.2).length ≤ fuel := by
  intro fuel
  induction fuel with
  | zero => intro s db; simp [OrderWorkflow.handle_shipping_with_retry]
  | succ k ih =>
      intro s db
      unfold OrderWorkflow.handle_shipping_with_retry
      dsimp only
      split
      · split
        · simp
        · split
          · simp
          · split
            · simp
            · simpa using ih _ _
      · simp

theorem shipLoop_ok_value (fl : Flaky) (sc : Sched) :
    ∀ (fuel : Nat) (s : ControlState) (db : DB) (r : String),
      (OrderWorkflow.handle_shipping_with_retry fl sc fuel s db).1 = .ok r →
      r = "Dispatched" := by
  intro fuel
  induction fuel with
  | zero =>
      intro s db r h
      simp [OrderWorkflow.handle_shipping_with_retry] at h
  | succ k ih =>
      intro s db r h
      unfold OrderWorkflow.handle_shipping_with_retry at h
      dsimp only at h
      split at h
      · split at h
        · simp at h
        · split at h
          case _ o _ rc heq =>
            simp at h
            rw [ShippingWorkflow.run_fst] at heq
            rcases hp : fl.prep s.shipping_retry_count with _ | ep
            · rcases hd : fl.disp s.shipping_retry_count with _ | ed
              · rw [hp, hd] at heq
                simp at heq
                exact (heq.trans h).symm
              · rw [hp, hd] at heq
                simp at heq
            · rw [hp] at heq
              simp at heq
          case _ o _ e heq =>
            split at h
            · simp at h
            · exact ih _ _ r (by simpa using h)
      · simp at h

theorem shipFailState_count (sc : Sched) (i : Nat) (s : ControlState) :
    (shipFailState sc i s).shipping_retry_count = s.shipping_retry_count + 1 := by
  unfold shipFailState
  rw [dispatchWait_count]
  show (applySigs (sc.duringShip i) { s with dispatch_failed_reason := none
    }).shipping_retry_count + 1 = _
  rw [applySigs_count]

theorem shipFailState_order_some {s : ControlState} {o : Order} (sc : Sched) (i : Nat)
    (h : s.order = some o) : ∃ o', (shipFailState sc i s).order = some o' := by
  unfold shipFailState
  obtain ⟨o2, h2⟩ := @applySigs_order_some (sc.duringShip i) _ _
    (show ({ s with dispatch_failed_reason := none } : ControlState).order = some o from h)
  exact dispatchWait_order_some (show (_ : ControlState).order = some o2 from h2)

/-- When every shipping attempt fails, the retry loop performs one attempt
per remaining retry budget, then surfaces the aggregated error naming the
attempt bound and the failure of the last attempt. -/
theorem shipLoop_all_fail (fl : Flaky) (sc : Sched) (E : Nat → String)
    (hfail : ∀ i, childOutcome fl i = .error (E i)) :
    ∀ (fuel : Nat) (s : ControlState) (db : DB) (o : Order),
      s.order = some o → s.shipping_retry_count + fuel = maxShippingRetries → 0 < fuel →
      (OrderWorkflow.handle_shipping_with_retry fl sc fuel s db).1 =
        .error ("Shipping failed after " ++ toString maxShippingRetries ++ " attempts: " ++
          E (maxShippingRetries - 1)) ∧
      (OrderWorkflow.handle_shipping_with_retry fl sc fuel s db).2.2.2 =
        List.range' s.shipping_retry_count fuel := by
  intro fuel
  induction fuel with
  | zero => intro s db o _ _ hpos; exact absurd hpos (by simp)
  | succ k ih =>
      intro s db o hord hsum _
      have hM : maxShippingRetries = 3 := rfl
      have hlt : s.shipping_retry_count < maxShippingRetries := by omega
      have hchild : (ShippingWorkflow.run (fl.prep s.shipping_retry_count)
          (fl.disp s.shipping_retry_count) (fl.notify s.shipping_retry_count) o db).1 =
          .error (E s.shipping_retry_count) := by
        rw [ShippingWorkflow.run_fst]
        exact hfail s.shipping_retry_count
      unfold OrderWorkflow.handle_shipping_with_retry
      dsimp only
      rw [if_pos hlt]
      simp only [hord]
      try dsimp only
      simp only [hchild]
      try dsimp only
      rw [shipFailState_count]
      by_cases hC : maxShippingRetries ≤ s.shipping_retry_count + 1
      · rw [if_pos hC]
        have hcnt : s.shipping_retry_count = maxShippingRetries - 1 := by omega
        have hk : k = 0 := by omega
        subst hk
        refine ⟨by rw [hcnt], ?_⟩
        show [s.shipping_retry_count] = List.range' s.shipping_retry_count 1
        simp [List.range']
      · rw [if_neg hC]
        obtain ⟨o4, ho4⟩ := shipFailState_order_some sc s.shipping_retry_count hord
        have hrec := ih (shipFailState sc s.shipping_retry_count s)
          (ShippingWorkflow.run (fl.prep s.shipping_retry_count)
            (fl.disp s.shipping_retry_count) (fl.notify s.shipping_retry_count) o db).2.1
          o4 ho4 (by rw [shipFailState_count]; omega) (by omega)
        refine ⟨by simpa using hrec.1, ?_⟩
        show s.shipping_retry_count :: (OrderWorkflow.handle_shipping_with_retry fl sc k
          (shipFailState sc s.shipping_retry_count s) _).2.2.2 = _
        rw [hrec.2, shipFailState_count, List.range'_succ s.shipping_retry_count k 1]

theorem order_validated_after_receive (oid : String) (db : DB) :
    order_validated (order_received oid db).1 (order_received oid db).2 =
      .ok (true, updateOrderState (order_received oid db).2 oid "validated") := by
  have hany : ((order_received oid db).2).orders.any
      (fun r => r.id == ((order_received oid db).1).order_id) = true := by
    show ((insertOrderIfAbsent db ⟨oid, "received", [⟨"ABC", some 1⟩]⟩).orders.any
      (fun r => r.id == oid)) = true
    exact insertOrder_any db ⟨oid, "received", [⟨"ABC", some 1⟩]⟩
  unfold order_validated
  rw [hany]
  rfl

theorem insertOrder_exists (db : DB) (row : OrderRow) :
    ∃ r ∈ (insertOrderIfAbsent db row).orders, r.id = row.id := by
  unfold insertOrderIfAbsent
  split
  · next h =>
      obtain ⟨r, hr, hid⟩ := List.any_eq_true.mp h
      exact ⟨r, hr, by simpa using hid⟩
  · exact ⟨row, by simp, rfl⟩

theorem updateOrderState_exists {db : DB} {oid0 : String}
    (h : ∃ r ∈ db.orders, r.id = oid0) (oid2 st : String) :
    ∃ r ∈ (updateOrderState db oid2 st).orders, r.id = oid0 := by
  obtain ⟨r, hr, hid⟩ := h
  unfold updateOrderState
  refine ⟨_, List.mem_map_of_mem (fun r => if r.id == oid2 then { r with state := st } else r)
    hr, ?_⟩
  dsimp only
  split <;> simpa using hid

/-- If the review wait reports a timeout, neither flag was ever observed set
while it ran, in particular the final state is uncancelled and unapproved. -/
theorem reviewWait_fst_false {gs : List Sig} : ∀ {s : ControlState},
    (reviewWait s gs).1 = false →
    ((reviewWait s gs).2.1).cancelled = false ∧
    ((reviewWait s gs).2.1).manual_approval_received = false := by
  induction gs with
  | nil =>
      intro s h
      have h' : (s.manual_approval_received || s.cancelled) = false := h
      constructor
      · exact (Bool.or_eq_false_iff.mp h').2
      · exact (Bool.or_eq_false_iff.mp h').1
  | cons g gs ih =>
      intro s h
      by_cases hc : (s.manual_approval_received || s.cancelled) = true
      · exact absurd (show (reviewWait s (g :: gs)).1 = true by
          show (if s.manual_approval_received || s.cancelled then (true, s, g :: gs)
            else reviewWait (applySig g s) gs).1 = true
          rw [if_pos hc]) (by rw [h]; simp)
      · have hc' : (s.manual_approval_received || s.cancelled) = false := by
          simpa using hc
        have hstep : reviewWait s (g :: gs) = reviewWait (applySig g s) gs := by
          show (if s.manual_approval_received || s.cancelled then (true, s, g :: gs)
            else reviewWait (applySig g s) gs) = _
          rw [if_neg (by simp [hc'])]
        rw [hstep] at h ⊢
        exact ih h

theorem shipLoop_first_ok (fl : Flaky) (sc : Sched) (fuel : Nat) (s : ControlState)
    (db : DB) (o : Order) (r : String) (hord : s.order = some o)
    (hlt : s.shipping_retry_count < maxShippingRetries)
    (hchild : childOutcome fl s.shipping_retry_count = .ok r) :
    (OrderWorkflow.handle_shipping_with_retry fl sc (fuel + 1) s db).1 = .ok r := by
  have hc : (ShippingWorkflow.run (fl.prep s.shipping_retry_count)
      (fl.disp s.shipping_retry_count) (fl.notify s.shipping_retry_count) o db).1 = .ok r := by
    rw [ShippingWorkflow.run_fst]
    exact hchild
  unfold OrderWorkflow.handle_shipping_with_retry
  dsimp only
  rw [if_pos hlt]
  simp only [hord]
  try dsimp only
  simp only [hc]

theorem run_chargefail (oid pid : String) (fl : Flaky) (sc : Sched) (db : DB) (e : String)
    (hrecv : fl.receive = none) (hval : fl.validate = none) (hchg : fl.charge = some e)
    (hc1 : Sig.cancel ∉ sc.duringReceive) (hc2 : Sig.cancel ∉ sc.duringValidate)
    (hc3 : Sig.cancel ∉ sc.duringReview) :
    (OrderWorkflow.run oid pid fl sc db).1 = .error e ∧
    (OrderWorkflow.run oid pid fl sc db).2.2.2 =
      [.receiveStep, .validateStep, .chargeStep] := by
  have hs1c : (stateAfterReceive sc (order_received oid db).1).cancelled = false := by
    show (applySigs sc.duringReceive ControlState.init).cancelled = false
    rw [applySigs_cancelled_of_not_mem hc1]
    rfl
  have hs2c : (stateAfterValidate sc (order_received oid db).1).cancelled = false := by
    show (applySigs sc.duringValidate (stateAfterReceive sc
      (order_received oid db).1)).cancelled = false
    rw [applySigs_cancelled_of_not_mem hc2, hs1c]
  have hwc : ((reviewPhase sc (order_received oid db).1).2.1).cancelled = false := by
    show ((reviewWait (stateAfterValidate sc (order_received oid db).1)
      sc.duringReview).2.1).cancelled = false
    rw [reviewWait_cancelled_of_not_mem hc3, hs2c]
  constructor <;>
  · unfold OrderWorkflow.run
    rw [hrecv, hval]
    simp only [order_validated_after_receive, hs1c, hs2c, hwc, hchg, Bool.and_false]
    simp

/-- When receive and validate succeed and no cancel signal is processed
before the charge step is scheduled, the saga invokes the charge step and
its result is never the cancellation result. -/
theorem run_charge_reached (oid pid : String) (fl : Flaky) (sc : Sched) (db : DB)
    (hrecv : fl.receive = none) (hval : fl.validate = none)
    (hc1 : Sig.cancel ∉ sc.duringReceive) (hc2 : Sig.cancel ∉ sc.duringValidate)
    (hc3 : Sig.cancel ∉ sc.duringReview) :
    StepName.chargeStep ∈ (OrderWorkflow.run oid pid fl sc db).2.2.2 ∧
    (OrderWorkflow.run oid pid fl sc db).1 ≠ .ok "Order cancelled" := by
  rcases hchg : fl.charge with _ | e
  · obtain ⟨sPre, dbPre, hcnt, ⟨oC, hoC⟩, hok, herr, hsteps⟩ :=
      run_reaches_shipping oid pid fl sc db hrecv hval hchg hc1 hc2 hc3
    constructor
    · rw [hsteps]
      simp
    · rcases hres : (OrderWorkflow.handle_shipping_with_retry fl sc maxShippingRetries
          sPre dbPre).1 with e | r
      · rw [herr e hres]
        simp
      · have hr := shipLoop_ok_value fl sc maxShippingRetries sPre dbPre r hres
        subst hr
        rw [hok _ hres]
        intro hcon
        exact absurd (Except.ok.inj hcon) (by decide)
  · obtain ⟨h1, h2⟩ := run_chargefail oid pid fl sc db e hrecv hval hchg hc1 hc2 hc3
    constructor
    · rw [h2]
      simp
    · rw [h1]
      simp

/-- C5: when the approve signal is processed during the review wait, no
cancel signal is processed before the charge step, and the receive,
validate, charge, prepare-package and dispatch-carrier steps all succeed on
the first shipping attempt, the saga returns exactly
"Order completed: Dispatched". -/
theorem claim_C5_happy_path (oid pid : String) (fl : Flaky) (sc : Sched) (db : DB)
    (hrecv : fl.receive = none) (hval : fl.validate = none) (hchg : fl.charge = none)
    (hprep : fl.prep 0 = none) (hdisp : fl.disp 0 = none)
    (hc1 : Sig.cancel ∉ sc.duringReceive) (hc2 : Sig.cancel ∉ sc.duringValidate)
    (hc3 : Sig.cancel ∉ sc.duringReview)
    (_happrove : Sig.approve ∈ sc.duringReview) :
    (OrderWorkflow.run oid pid fl sc db).1 = .ok "Order completed: Dispatched" := by
  obtain ⟨sPre, dbPre, hcnt, ⟨oC, hoC⟩, hok, herr, hsteps⟩ :=
    run_reaches_shipping oid pid fl sc db hrecv hval hchg hc1 hc2 hc3
  have hchild : childOutcome fl sPre.shipping_retry_count = .ok "Dispatched" := by
    rw [hcnt]
    unfold childOutcome
    rw [hprep, hdisp]
  have hl : (OrderWorkflow.handle_shipping_with_retry fl sc maxShippingRetries
      sPre dbPre).1 = .ok "Dispatched" :=
    shipLoop_first_ok fl sc 2 sPre dbPre oC "Dispatched" hoC
      (by rw [hcnt]; decide) hchild
  exact hok "Dispatched" hl

def happyFlaky : Flaky := ⟨none, none, none, fun _ => none, fun _ => none, fun _ => false⟩

def approveSched : Sched := ⟨[], [], [Sig.approve], [], fun _ => [], fun _ => []⟩

/-- C5 witness: order O1 with payment PAY1, approval delivered during the
review window, everything succeeding. -/
theorem claim_C5_witness :
    (happyFlaky.receive = none ∧ happyFlaky.validate = none ∧ happyFlaky.charge = none ∧
      happyFlaky.prep 0 = none ∧ happyFlaky.disp 0 = none ∧
      Sig.cancel ∉ approveSched.duringReceive ∧ Sig.cancel ∉ approveSched.duringValidate ∧
      Sig.cancel ∉ approveSched.duringReview ∧ Sig.approve ∈ approveSched.duringReview) ∧
    (OrderWorkflow.run "O1" "PAY1" happyFlaky approveSched DB.empty).1 =
      .ok "Order completed: Dispatched" :=
  ⟨⟨rfl, rfl, rfl, rfl, rfl, by decide, by decide, by decide, by decide⟩,
   claim_C5_happy_path "O1" "PAY1" happyFlaky approveSched DB.empty rfl rfl rfl rfl rfl
     (by decide) (by decide) (by decide) (by decide)⟩

/-- C3: the shipping retry loop starts at most 3 shipping child-workflow
instances; when all three attempts fail, the Order Saga fails with the
aggregated error naming the attempt count and the last attempt's failure,
having started exactly the child instances for attempts 0, 1 and 2. -/
theorem claim_C3_shipping_exhausted (oid pid : String) (fl : Flaky) (sc : Sched) (db : DB)
    (E : Nat → String)
    (hfail : ∀ i, childOutcome fl i = .error (E i))
    (hrecv : fl.receive = none) (hval : fl.validate = none) (hchg : fl.charge = none)
    (hc1 : Sig.cancel ∉ sc.duringReceive) (hc2 : Sig.cancel ∉ sc.duringValidate)
    (hc3 : Sig.cancel ∉ sc.duringReview) :
    (∀ (s : ControlState) (db' : DB),
      ((OrderWorkflow.handle_shipping_with_retry fl sc maxShippingRetries
        s db').2.2.2).length ≤ 3) ∧
    (OrderWorkflow.run oid pid fl sc db).1 =
      .error ("Shipping failed after 3 attempts: " ++ E 2) ∧
    (OrderWorkflow.run oid pid fl sc db).2.2.2 =
      [.receiveStep, .validateStep, .chargeStep,
       .shipChild 0, .shipChild 1, .shipChild 2] := by
  obtain ⟨sPre, dbPre, hcnt, ⟨oC, hoC⟩, hok, herr, hsteps⟩ :=
    run_reaches_shipping oid pid fl sc db hrecv hval hchg hc1 hc2 hc3
  have hloop := shipLoop_all_fail fl sc E hfail maxShippingRetries sPre dbPre oC hoC
    (by rw [hcnt]; omega) (by decide)
  refine ⟨fun s db' => shipLoop_length_le fl sc maxShippingRetries s db', ?_, ?_⟩
  · exact herr _ hloop.1
  · rw [hsteps, hloop.2, hcnt]
    rfl

def prepFailFlaky : Flaky :=
  ⟨none, none, none, fun _ => some "warehouse offline", fun _ => none, fun _ => false⟩

def quietSched : Sched := ⟨[], [], [], [], fun _ => [], fun _ => []⟩

/-- C3 witness: every shipping attempt fails with "warehouse offline"; the
saga fails with the aggregated 3-attempt error after starting exactly three
child instances. -/
theorem claim_C3_witness :
    ((∀ i, childOutcome prepFailFlaky i = .error "warehouse offline") ∧
      prepFailFlaky.receive = none ∧ prepFailFlaky.validate = none ∧
      prepFailFlaky.charge = none ∧ Sig.cancel ∉ quietSched.duringReceive ∧
      Sig.cancel ∉ quietSched.duringValidate ∧ Sig.cancel ∉ quietSched.duringReview) ∧
    (OrderWorkflow.run "O1" "PAY1" prepFailFlaky quietSched DB.empty).1 =
      .error "Shipping failed after 3 attempts: warehouse offline" ∧
    (OrderWorkflow.run "O1" "PAY1" prepFailFlaky quietSched DB.empty).2.2.2 =
      [.receiveStep, .validateStep, .chargeStep,
       .shipChild 0, .shipChild 1, .shipChild 2] :=
  ⟨⟨fun i => rfl, rfl, rfl, rfl, by decide, by decide, by decide⟩,
   (claim_C3_shipping_exhausted "O1" "PAY1" prepFailFlaky quietSched DB.empty
      (fun _ => "warehouse offline") (fun i => rfl) rfl rfl rfl
      (by decide) (by decide) (by decide)).2.1,
   (claim_C3_shipping_exhausted "O1" "PAY1" prepFailFlaky quietSched DB.empty
      (fun _ => "warehouse offline") (fun i => rfl) rfl rfl rfl
      (by decide) (by decide) (by decide)).2.2⟩

/-- C4: when neither the approve nor the cancel signal is processed before
or during the review wait and the receive and validate steps succeed, the
review wait times out, the timeout is handled, and the saga goes on to
invoke the charge step; it neither fails at the wait nor cancels. -/
theorem claim_C4_timeout_proceeds (oid pid : String) (fl : Flaky) (sc : Sched) (db : DB)
    (hrecv : fl.receive = none) (hval : fl.validate = none)
    (hc1 : Sig.cancel ∉ sc.duringReceive) (hc2 : Sig.cancel ∉ sc.duringValidate)
    (hc3 : Sig.cancel ∉ sc.duringReview)
    (ha1 : Sig.approve ∉ sc.duringReceive) (ha2 : Sig.approve ∉ sc.duringValidate)
    (ha3 : Sig.approve ∉ sc.duringReview) :
    (reviewPhase sc (order_received oid db).1).1 = false ∧
    StepName.chargeStep ∈ (OrderWorkflow.run oid pid fl sc db).2.2.2 ∧
    (OrderWorkflow.run oid pid fl sc db).1 ≠ .ok "Order cancelled" := by
  have hs1c : (stateAfterReceive sc (order_received oid db).1).cancelled = false := by
    show (applySigs sc.duringReceive ControlState.init).cancelled = false
    rw [applySigs_cancelled_of_not_mem hc1]
    rfl
  have hs1a : (stateAfterReceive sc (order_received oid db).1).manual_approval_received
      = false := by
    show (applySigs sc.duringReceive ControlState.init).manual_approval_received = false
    rw [applySigs_approved_of_not_mem ha1]
    rfl
  have hs2c : (stateAfterValidate sc (order_received oid db).1).cancelled = false := by
    show (applySigs sc.duringValidate (stateAfterReceive sc
      (order_received oid db).1)).cancelled = false
    rw [applySigs_cancelled_of_not_mem hc2, hs1c]
  have hs2a : (stateAfterValidate sc (order_received oid db).1).manual_approval_received
      = false := by
    show (applySigs sc.duringValidate (stateAfterReceive sc
      (order_received oid db).1)).manual_approval_received = false
    rw [applySigs_approved_of_not_mem ha2, hs1a]
  refine ⟨?_, (run_charge_reached oid pid fl sc db hrecv hval hc1 hc2 hc3).1,
    (run_charge_reached oid pid fl sc db hrecv hval hc1 hc2 hc3).2⟩
  show (reviewWait (stateAfterValidate sc (order_received oid db).1) sc.duringReview).1
    = false
  rw [reviewWait_timeout hc3 ha3 hs2c hs2a]

/-- C4 witness: no signal at all is delivered; the review wait times out and
the charge step is still invoked. -/
theorem claim_C4_witness :
    (happyFlaky.receive = none ∧ happyFlaky.validate = none ∧
      Sig.cancel ∉ quietSched.duringReceive ∧ Sig.cancel ∉ quietSched.duringValidate ∧
      Sig.cancel ∉ quietSched.duringReview ∧ Sig.approve ∉ quietSched.duringReceive ∧
      Sig.approve ∉ quietSched.duringValidate ∧ Sig.approve ∉ quietSched.duringReview) ∧
    ((reviewPhase quietSched (order_received "O1" DB.empty).1).1 = false ∧
     StepName.chargeStep ∈
       (OrderWorkflow.run "O1" "PAY1" happyFlaky quietSched DB.empty).2.2.2 ∧
     (OrderWorkflow.run "O1" "PAY1" happyFlaky quietSched DB.empty).1 ≠
       .ok "Order cancelled") :=
  ⟨⟨rfl, rfl, by decide, by decide, by decide, by decide, by decide, by decide⟩,
   claim_C4_timeout_proceeds "O1" "PAY1" happyFlaky quietSched DB.empty rfl rfl
     (by decide) (by decide) (by decide) (by decide) (by decide) (by decide)⟩

/-- C2: when the receive and validate steps succeed and the cancel signal is
processed before the charge step begins (during the receive await, the
validate await, or the review wait), the saga returns "Order cancelled",
never invokes the charge step or any shipping child workflow, and the order
row committed by the receive step is still in the store. -/
theorem claim_C2_cancel_before_charge (oid pid : String) (fl : Flaky) (sc : Sched) (db : DB)
    (hrecv : fl.receive = none) (hval : fl.validate = none)
    (hcancel : Sig.cancel ∈ sc.duringReceive ∨ Sig.cancel ∈ sc.duringValidate ∨
      ((reviewPhase sc (order_received oid db).1).2.1).cancelled = true) :
    (OrderWorkflow.run oid pid fl sc db).1 = .ok "Order cancelled" ∧
    StepName.chargeStep ∉ (OrderWorkflow.run oid pid fl sc db).2.2.2 ∧
    (∀ i, StepName.shipChild i ∉ (OrderWorkflow.run oid pid fl sc db).2.2.2) ∧
    (∃ row ∈ ((OrderWorkflow.run oid pid fl sc db).2.2.1).orders, row.id = oid) := by
  have hdbrow : ∃ r ∈ ((order_received oid db).2).orders, r.id = oid :=
    insertOrder_exists db ⟨oid, "received", [⟨"ABC", some 1⟩]⟩
  by_cases hA : (stateAfterReceive sc (order_received oid db).1).cancelled = true
  · have hrun : OrderWorkflow.run oid pid fl sc db =
        (.ok "Order cancelled", stateAfterReceive sc (order_received oid db).1,
         (order_received oid db).2, [.receiveStep]) := by
      unfold OrderWorkflow.run
      rw [hrecv]
      simp only [hA]
      simp
    rw [hrun]
    exact ⟨rfl, by simp, fun i => by simp, hdbrow⟩
  · have hAf : (stateAfterReceive sc (order_received oid db).1).cancelled = false := by
      simpa using hA
    by_cases hB : (stateAfterValidate sc (order_received oid db).1).cancelled = true
    · have hrun : OrderWorkflow.run oid pid fl sc db =
          (.ok "Order cancelled", stateAfterValidate sc (order_received oid db).1,
           updateOrderState (order_received oid db).2 oid "validated",
           [.receiveStep, .validateStep]) := by
        unfold OrderWorkflow.run
        rw [hrecv, hval]
        simp only [order_validated_after_receive, hAf, hB]
        simp
      rw [hrun]
      exact ⟨rfl, by simp, fun i => by simp, updateOrderState_exists hdbrow oid "validated"⟩
    · have hBf : (stateAfterValidate sc (order_received oid db).1).cancelled = false := by
        simpa using hB
      have hrev : ((reviewPhase sc (order_received oid db).1).2.1).cancelled = true := by
        rcases hcancel with hm | hm | hm
        · exact absurd (show (stateAfterReceive sc (order_received oid db).1).cancelled
            = true from applySigs_cancelled_of_mem hm ControlState.init) (by simp [hAf])
        · exact absurd (show (stateAfterValidate sc (order_received oid db).1).cancelled
            = true from applySigs_cancelled_of_mem hm _) (by simp [hBf])
        · exact hm
      have hw1 : (reviewPhase sc (order_received oid db).1).1 = true := by
        by_contra hne
        have hfalse : (reviewPhase sc (order_received oid db).1).1 = false := by
          simpa using hne
        have hres := @reviewWait_fst_false sc.duringReview
          (stateAfterValidate sc (order_received oid db).1) hfalse
        have hcf : ((reviewPhase sc (order_received oid db).1).2.1).cancelled = false :=
          hres.1
        exact absurd hrev (by simp [hcf])
      have hrun : OrderWorkflow.run oid pid fl sc db =
          (.ok "Order cancelled", (reviewPhase sc (order_received oid db).1).2.1,
           updateOrderState (order_received oid db).2 oid "validated",
           [.receiveStep, .validateStep]) := by
        unfold OrderWorkflow.run
        rw [hrecv, hval]
        simp only [order_validated_after_receive, hAf, hBf, hw1, hrev]
        simp
      rw [hrun]
      exact ⟨rfl, by simp, fun i => by simp, updateOrderState_exists hdbrow oid "validated"⟩

def cancelSched : Sched := ⟨[Sig.cancel], [], [], [], fun _ => [], fun _ => []⟩

/-- C2 witness: the cancel signal is processed during the receive await; the
saga cancels, skips charge and shipping, and the order row survives. -/
theorem claim_C2_witness :
    (happyFlaky.receive = none ∧ happyFlaky.validate = none ∧
      Sig.cancel ∈ cancelSched.duringReceive) ∧
    ((OrderWorkflow.run "O1" "PAY1" happyFlaky cancelSched DB.empty).1 =
        .ok "Order cancelled" ∧
     StepName.chargeStep ∉
       (OrderWorkflow.run "O1" "PAY1" happyFlaky cancelSched DB.empty).2.2.2 ∧
     (∀ i, StepName.shipChild i ∉
       (OrderWorkflow.run "O1" "PAY1" happyFlaky cancelSched DB.empty).2.2.2) ∧
     (∃ row ∈ ((OrderWorkflow.run "O1" "PAY1" happyFlaky cancelSched
         DB.empty).2.2.1).orders, row.id = "O1")) :=
  ⟨⟨rfl, rfl, by decide⟩,
   claim_C2_cancel_before_charge "O1" "PAY1" happyFlaky cancelSched DB.empty rfl rfl
     (Or.inl (by decide))⟩
